import Mathlib

/-!
# Verification of the papro-rusty k-mer profiling core

A shallow embedding of the program's k-mer counting engine
(`src/kmer/counter.rs`), profile scoring engine (`src/profile/analyzer.rs`)
and profile store operations (`src/db/database.rs`), together with theorems
settling the specification's claims about them.

Modelling conventions:
* A k-mer is its textual content, a `List Char` (`from_utf8_lossy` is lossless
  on the ACGT alphabet, so the byte form and the text form coincide).
* The `DashMap<Kmer, usize>` of the counter is modelled by the list of every
  window ever ingested: the map's entry for a k-mer equals the number of
  occurrences of that k-mer in the list.  Hash-map iteration order is
  unspecified in the source; where the code iterates a map we iterate the
  first-occurrence (`dedup`) order, a particular instance of that
  unspecified order.
* `f64` arithmetic is modelled by `ℚ`.  The one place division by zero
  matters is the accept test `sample_coverage >= min_similarity`: with an
  empty sample the coverage is `0.0/0.0 = NaN` and every comparison with NaN
  is false, which `coverage_ge` reproduces with an explicit `0 < size` guard.
* The SQLite store is modelled as a list of profile rows; the `kmers` table
  rows of a profile are carried inline (they are keyed by
  `(profile_id, kmer)`, so a well-formed store has no duplicate k-mer keys
  within one profile).
-/

namespace Papro

/-- A k-mer: the textual content of a fixed-width window. -/
abbrev Kmer := List Char

/-- `sequence.windows(k)` from `count_sequence` (src/kmer/counter.rs):
all contiguous width-`k` slices; empty when the sequence is shorter than `k`. -/
def windows (k : Nat) (s : List Char) : List Kmer :=
  if s.length < k then []
  else (List.range (s.length - k + 1)).map (fun i => (s.drop i).take k)

/-- `KmerCounter` (src/kmer/counter.rs): the configured `k` plus the frequency
table, modelled as the list of all ingested windows (see header). -/
structure KmerCounter where
  k : Nat
  counts : List Kmer
deriving DecidableEq

namespace KmerCounter

/-- `KmerCounter::new(k)`. -/
def new (k : Nat) : KmerCounter := ⟨k, []⟩

/-- `count_sequence`: no-op when the sequence is shorter than `k`, otherwise
every width-`k` window is counted once. -/
def count_sequence (c : KmerCounter) (s : List Char) : KmerCounter :=
  if s.length < c.k then c
  else { c with counts := c.counts ++ windows c.k s }

/-- `count_sequences`: drives `count_sequence` over a batch of sequences. -/
def count_sequences (c : KmerCounter) (seqs : List (List Char)) : KmerCounter :=
  seqs.foldl count_sequence c

/-- Processing a list of batches one batch at a time (the parallel fan-in of
`count_sequences` over workers, serialised in some order). -/
def countBatches (c : KmerCounter) (bs : List (List (List Char))) : KmerCounter :=
  bs.foldl count_sequences c

/-- `kmer_size()`. -/
def kmer_size (c : KmerCounter) : Nat := c.k

/-- `get_counts()` viewed as the map it returns: the count of one k-mer. -/
def get_counts (c : KmerCounter) (w : Kmer) : Nat := c.counts.count w

/-- The key set of `get_counts()` in first-occurrence order. -/
def sampleKmerList (c : KmerCounter) : List Kmer := c.counts.dedup

/-- `unique_kmers()`: number of distinct windows seen. -/
def unique_kmers (c : KmerCounter) : Nat := c.counts.dedup.length

/-- `total_kmers()`: sum of all counts, i.e. total windows seen. -/
def total_kmers (c : KmerCounter) : Nat := c.counts.length

end KmerCounter

/-- `TaxonomyLevel` (src/profile/types.rs). -/
inductive TaxonomyLevel where
  | Genus
  | Species
  | Strain
deriving DecidableEq

/-- One row of the `profiles` table together with its `kmers` table rows
(src/db/schemas.rs); `kmers` holds `(kmer, frequency)` pairs. -/
structure ProfileRow where
  id : Int
  name : String
  level : TaxonomyLevel
  k : Nat
  total_kmers : Nat
  kmers : List (Kmer × ℚ)
deriving DecidableEq

/-- `ProfileMatch` (src/profile/types.rs). -/
structure ProfileMatch where
  name : String
  sample_coverage : ℚ
  shared_kmers : Nat
  core_matches : Nat
  rare_matches : Nat
  avg_frequency : ℚ
  size_ratio : ℚ
deriving DecidableEq

/-- `ProfileAnalyzer` (src/profile/analyzer.rs): the store reachable through
`conn` plus the three configuration fields. -/
structure ProfileAnalyzer where
  profiles : List ProfileRow
  min_similarity : ℚ
  min_shared_kmers : Nat
  taxonomy_level : TaxonomyLevel

/-- The rows of the profile's `kmers` table whose k-mer also occurs in the
sample (the `sample_kmers.get(&kmer)` hits of `compare_with_profile`). -/
def sharedRows (p : ProfileRow) (sample : List Kmer) : List (Kmer × ℚ) :=
  p.kmers.filter (fun r => decide (r.1 ∈ sample))

/-- `shared_kmers` of `compare_with_profile`. -/
def sharedKmerCount (p : ProfileRow) (sample : List Kmer) : Nat :=
  (sharedRows p sample).length

/-- `sample_kmers.len()`: the sample's distinct k-mer count. -/
def sampleSize (sample : List Kmer) : Nat := sample.dedup.length

/-- `profile_unique_kmers.len()`: distinct k-mers among the profile's rows. -/
def profileSize (p : ProfileRow) : Nat := (p.kmers.map Prod.fst).dedup.length

/-- The f64 test `shared as f64 / size as f64 >= t`: when `size = 0` the
division is `0.0/0.0 = NaN` (the code only reaches it with `shared = 0`
then) and a comparison with NaN is false, hence the `0 < size` guard. -/
def coverage_ge (shared size : Nat) (t : ℚ) : Prop :=
  0 < size ∧ t ≤ (shared : ℚ) / (size : ℚ)

instance (shared size : Nat) (t : ℚ) : Decidable (coverage_ge shared size t) := by
  unfold coverage_ge; infer_instance

/-- `sample_coverage` of `compare_with_profile`. -/
def sampleCoverageQ (p : ProfileRow) (sample : List Kmer) : ℚ :=
  (sharedKmerCount p sample : ℚ) / (sampleSize sample : ℚ)

/-- `core_matches`: shared rows with reference frequency `>= 0.95`. -/
def coreCount (p : ProfileRow) (sample : List Kmer) : Nat :=
  ((sharedRows p sample).filter (fun r => decide ((95 : ℚ)/100 ≤ r.2))).length

/-- `rare_matches`: shared rows with reference frequency `<= 0.10`. -/
def rareCount (p : ProfileRow) (sample : List Kmer) : Nat :=
  ((sharedRows p sample).filter (fun r => decide (r.2 ≤ (10 : ℚ)/100))).length

/-- `avg_frequency`: mean reference frequency over shared rows, 0 if none. -/
def avgFrequencyQ (p : ProfileRow) (sample : List Kmer) : ℚ :=
  if 0 < sharedKmerCount p sample then
    ((sharedRows p sample).map Prod.snd).sum / (sharedKmerCount p sample : ℚ)
  else 0

/-- `size_ratio` of `compare_with_profile`: sample size over profile size. -/
def sizeRatioQ (p : ProfileRow) (sample : List Kmer) : ℚ :=
  (sampleSize sample : ℚ) / (profileSize p : ℚ)

/-- The accept test of `compare_with_profile` (analyzer.rs line 187). -/
def acceptMatch (a : ProfileAnalyzer) (p : ProfileRow) (sample : List Kmer) : Prop :=
  coverage_ge (sharedKmerCount p sample) (sampleSize sample) a.min_similarity ∧
    a.min_shared_kmers ≤ sharedKmerCount p sample

instance (a : ProfileAnalyzer) (p : ProfileRow) (sample : List Kmer) :
    Decidable (acceptMatch a p sample) := by
  unfold acceptMatch; infer_instance

/-- The `ProfileMatch::new(...)` record built on acceptance. -/
def mkMatch (p : ProfileRow) (sample : List Kmer) : ProfileMatch :=
  ⟨p.name, sampleCoverageQ p sample, sharedKmerCount p sample,
    coreCount p sample, rareCount p sample, avgFrequencyQ p sample,
    sizeRatioQ p sample⟩

/-- `compare_with_profile` (src/profile/analyzer.rs, lines 117–210). -/
def compare_with_profile (a : ProfileAnalyzer) (p : ProfileRow) (sample : List Kmer) :
    Option ProfileMatch :=
  if acceptMatch a p sample then some (mkMatch p sample) else none

/-- One step of the stable descending insertion modelling
`matches.sort_by(|a, b| b.sample_coverage.partial_cmp(&a.sample_coverage))`:
`m` goes in front of the first element whose coverage is `≤` its own (every
element of the tail came after `m` originally, so this is stable). -/
def insertByCoverage (m : ProfileMatch) : List ProfileMatch → List ProfileMatch
  | [] => [m]
  | x :: xs =>
    if x.sample_coverage ≤ m.sample_coverage then m :: x :: xs
    else x :: insertByCoverage m xs

/-- Stable sort by `sample_coverage`, descending (analyzer.rs line 112). -/
def sortByCoverage : List ProfileMatch → List ProfileMatch
  | [] => []
  | x :: xs => insertByCoverage x (sortByCoverage xs)

/-- `analyze_sample` (src/profile/analyzer.rs, lines 34–115): take the stored
profiles at the configured taxonomy level, skip those whose `k` differs from
the sample's, score the rest, keep the accepted ones and sort by
`sample_coverage` descending.  (The early return on an empty level is the
same as filtering everything out.) -/
def analyze_sample (a : ProfileAnalyzer) (c : KmerCounter) : List ProfileMatch :=
  sortByCoverage
    ((a.profiles.filter (fun p => decide (p.level = a.taxonomy_level))).filterMap
      (fun p => if p.k = c.kmer_size then compare_with_profile a p c.counts else none))

/-- `SharedKmer` (src/profile/analyzer.rs). -/
structure SharedKmer where
  sequence : Kmer
  sample_frequency : ℚ
  reference_frequency : ℚ
deriving DecidableEq

/-- `UniqueKmer` (src/profile/analyzer.rs). -/
structure UniqueKmer where
  sequence : Kmer
  frequency : ℚ
deriving DecidableEq

/-- `FrequencyDistribution` (src/profile/analyzer.rs). -/
structure FrequencyDistribution where
  high_freq : Nat
  mid_freq : Nat
  low_freq : Nat
deriving DecidableEq

/-- `AnalysisStatistics` (src/profile/analyzer.rs). -/
structure AnalysisStatistics where
  total_shared : Nat
  total_unique_reference : Nat
  total_unique_sample : Nat
  core_matches : Nat
  rare_matches : Nat
  avg_frequency : ℚ
  size_ratio : ℚ
  frequency_distribution : FrequencyDistribution
  average_frequency_difference : ℚ
  marker_kmer_matches : Nat
deriving DecidableEq

/-- `DetailedAnalysis` (src/profile/analyzer.rs). -/
structure DetailedAnalysis where
  shared_kmers : List SharedKmer
  unique_to_reference : List UniqueKmer
  unique_to_sample : List UniqueKmer
  statistics : AnalysisStatistics
deriving DecidableEq

/-- The zeroed statistics of `DetailedAnalysis::new()`. -/
def initStats : AnalysisStatistics :=
  ⟨0, 0, 0, 0, 0, 0, 0, ⟨0, 0, 0⟩, 0, 0⟩

/-- `DetailedAnalysis::calculate_statistics` (analyzer.rs lines 379–426):
totals are the list lengths; core/rare and the frequency distribution are
counted over the shared list; `size_ratio` is only overwritten when there is
at least one reference-only k-mer (otherwise the previously stored value —
0 from `new()` — is kept). -/
def calculate_statistics (d : DetailedAnalysis) : DetailedAnalysis :=
  { d with statistics :=
    { d.statistics with
      total_shared := d.shared_kmers.length
      total_unique_reference := d.unique_to_reference.length
      total_unique_sample := d.unique_to_sample.length
      core_matches :=
        (d.shared_kmers.filter (fun sk => decide ((95 : ℚ)/100 ≤ sk.reference_frequency))).length
      rare_matches :=
        (d.shared_kmers.filter (fun sk => decide (sk.reference_frequency ≤ (10 : ℚ)/100))).length
      avg_frequency :=
        if d.shared_kmers.length ≠ 0 then
          (d.shared_kmers.map SharedKmer.reference_frequency).sum / (d.shared_kmers.length : ℚ)
        else 0
      size_ratio :=
        if 0 < d.unique_to_reference.length then
          (d.unique_to_sample.length : ℚ) / (d.unique_to_reference.length : ℚ)
        else d.statistics.size_ratio
      frequency_distribution :=
        ⟨(d.shared_kmers.filter (fun sk => decide ((75 : ℚ)/100 ≤ sk.reference_frequency))).length,
         (d.shared_kmers.filter (fun sk =>
            decide (¬ (75 : ℚ)/100 ≤ sk.reference_frequency ∧
                    (25 : ℚ)/100 ≤ sk.reference_frequency))).length,
         (d.shared_kmers.filter (fun sk =>
            decide (¬ (75 : ℚ)/100 ≤ sk.reference_frequency ∧
                    ¬ (25 : ℚ)/100 ≤ sk.reference_frequency))).length⟩ } }

/-- The `shared_kmers` rows of `get_detailed_analysis`: profile rows whose
k-mer also occurs in the sample; the sample frequency is raw count over
`total_kmers()`. -/
def sharedList (p : ProfileRow) (c : KmerCounter) : List SharedKmer :=
  (p.kmers.filter (fun r => decide (r.1 ∈ c.counts))).map
    (fun r => SharedKmer.mk r.1 ((c.get_counts r.1 : ℚ) / (c.total_kmers : ℚ)) r.2)

/-- The `unique_to_reference` rows of `get_detailed_analysis`: profile rows
whose k-mer the sample lacks. -/
def refOnlyList (p : ProfileRow) (c : KmerCounter) : List UniqueKmer :=
  (p.kmers.filter (fun r => !decide (r.1 ∈ c.counts))).map
    (fun r => UniqueKmer.mk r.1 r.2)

/-- The `unique_to_sample` entries of `get_detailed_analysis`: sample k-mers
not already placed in the shared list (the `has_kmer` check). -/
def sampOnlyList (p : ProfileRow) (c : KmerCounter) : List UniqueKmer :=
  (c.sampleKmerList.filter
      (fun w => !((sharedList p c).any (fun sk => decide (sk.sequence = w))))).map
    (fun w => UniqueKmer.mk w ((c.get_counts w : ℚ) / (c.total_kmers : ℚ)))

/-- `get_detailed_analysis` (analyzer.rs lines 212–265): `none` when no
stored profile bears the name; otherwise the profile's k-mer rows are split
into shared and reference-only, the sample's remaining k-mers become
sample-only, and the statistics are computed. -/
def get_detailed_analysis (a : ProfileAnalyzer) (c : KmerCounter) (name : String) :
    Option DetailedAnalysis :=
  match a.profiles.find? (fun p => p.name == name) with
  | none => none
  | some p =>
    some (calculate_statistics ⟨sharedList p c, refOnlyList p c, sampOnlyList p c, initStats⟩)

/-- The in-memory `Profile` record (src/profile/types.rs), with its
frequency map as a key-ordered association list. -/
structure Profile where
  name : String
  level : TaxonomyLevel
  k : Nat
  frequencies : List (Kmer × ℚ)
  total_kmers : Nat
deriving DecidableEq

/-- The frequency map built by `create_profile` (database.rs lines 72–76):
each counted k-mer maps to raw count over `total_kmers()`. -/
def profileFrequencies (c : KmerCounter) : List (Kmer × ℚ) :=
  c.sampleKmerList.map (fun w => (w, (c.get_counts w : ℚ) / (c.total_kmers : ℚ)))

/-- The store row inserted for a profile by `add_profile`; `id` models
`last_insert_rowid()`. -/
def mkRow (store : List ProfileRow) (p : Profile) : ProfileRow :=
  ⟨(store.length : Int) + 1, p.name, p.level, p.k, p.total_kmers, p.frequencies⟩

/-- `Database::add_profile` (database.rs lines 92–136): when a profile with
the same name already exists it logs a warning and returns `Ok(())` without
touching the store; otherwise the row is inserted transactionally. -/
def add_profile (store : List ProfileRow) (p : Profile) :
    List ProfileRow × Except String Unit :=
  if store.any (fun r => r.name == p.name) then (store, .ok ())
  else (store ++ [mkRow store p], .ok ())

/-- The `Profile` value assembled by `create_profile` from a counter. -/
def mkProfile (c : KmerCounter) (name : String) (level : TaxonomyLevel) : Profile :=
  ⟨name, level, c.k, profileFrequencies c, c.total_kmers⟩

/-- `Database::create_profile` (database.rs lines 26–89), with the counting
of the input files already done (the counter is the argument): a duplicate
name is a fatal error before anything is written; otherwise the profile is
built and handed to `add_profile`. -/
def create_profile (store : List ProfileRow) (c : KmerCounter) (name : String)
    (level : TaxonomyLevel) : List ProfileRow × Except String Profile :=
  if store.any (fun r => r.name == name) then
    (store, .error ("Profile " ++ name ++ " already exists in database"))
  else
    let p := mkProfile c name level
    ((add_profile store p).1, .ok p)

/-- Follows the spec's words (§4.2), not the source — the distinct k-mers a
profile shares with the sample (support of the spec's uniqueness pass). -/
def specSharedKmers (p : ProfileRow) (sample : List Kmer) : List Kmer :=
  ((p.kmers.map Prod.fst).dedup).filter (fun w => decide (w ∈ sample))

/-- Follows the spec's words (§4.2): whether any *other* stored profile also
contains the k-mer. -/
def ownedElsewhere (store : List ProfileRow) (p : ProfileRow) (w : Kmer) : Bool :=
  store.any (fun q => decide (q.name ≠ p.name) && q.kmers.any (fun r => decide (r.1 = w)))

/-- Follows the spec's words (§4.2), not the source — the source computes no
such score.  `uniqueness_score`: the fraction of the shared k-mers that occur
in no other stored profile; 0 when there are no shared k-mers. -/
def spec_uniqueness_score (store : List ProfileRow) (p : ProfileRow)
    (sample : List Kmer) : ℚ :=
  if (specSharedKmers p sample).length = 0 then 0
  else
    (((specSharedKmers p sample).filter (fun w => !ownedElsewhere store p w)).length : ℚ) /
      ((specSharedKmers p sample).length : ℚ)

/-- Follows the spec's words (§4.2), not the source:
`confidence_score = (sample_coverage + uniqueness_score + (1 − |1 − size_ratio|)) / 3`. -/
def spec_confidence_score (store : List ProfileRow) (p : ProfileRow)
    (sample : List Kmer) : ℚ :=
  (sampleCoverageQ p sample + spec_uniqueness_score store p sample +
    (1 - |1 - sizeRatioQ p sample|)) / 3

/-! ### Concrete instances used by counterexamples and witnesses -/

/-- A sample counted with k = 2 whose distinct k-mers are `AA` and `CC`. -/
def sampleC : KmerCounter := ⟨2, [['A', 'A'], ['C', 'C']]⟩

/-- A large Species reference at k = 2: covers the whole sample but is six
times its size, and shares every one of its sample-shared k-mers with some
other stored profile. -/
def rowP1 : ProfileRow :=
  ⟨1, "P1", .Species, 2, 12,
    [(['A', 'A'], 1/12), (['C', 'C'], 1/12), (['A', 'C'], 1/12), (['A', 'G'], 1/12),
     (['A', 'T'], 1/12), (['C', 'A'], 1/12), (['C', 'G'], 1/12), (['C', 'T'], 1/12),
     (['G', 'A'], 1/12), (['G', 'C'], 1/12), (['G', 'T'], 1/12), (['T', 'A'], 1/12)]⟩

/-- A small Species reference at k = 2: covers half the sample but is exactly
sample-sized. -/
def rowP2 : ProfileRow :=
  ⟨2, "P2", .Species, 2, 2, [(['A', 'A'], 1/2), (['T', 'G'], 1/2)]⟩

/-- A Genus profile owning `CC`, so that `CC` is not unique to `rowP1`. -/
def rowP3 : ProfileRow := ⟨3, "P3", .Genus, 2, 1, [(['C', 'C'], 1)]⟩

/-- Analyzer over the three-profile store with thresholds 0 at Species. -/
def analyzerA : ProfileAnalyzer := ⟨[rowP1, rowP2, rowP3], 0, 0, .Species⟩

/-- A one-profile Species store at k = 2. -/
def rowQ : ProfileRow := ⟨1, "Q", .Species, 2, 1, [(['A', 'A'], 1)]⟩

/-- Analyzer over the one-profile store with thresholds 0 at Species. -/
def analyzerQ : ProfileAnalyzer := ⟨[rowQ], 0, 0, .Species⟩

/-- A one-window sample counted with k = 2: just `AA`. -/
def sampleQ : KmerCounter := ⟨2, [['A', 'A']]⟩

/-- A k = 3 Species profile, for the empty-sample counterexample. -/
def rowE : ProfileRow := ⟨1, "E", .Species, 3, 1, [(['A', 'A', 'A'], 1)]⟩

/-- Analyzer over `[rowE]` with thresholds 0 at Species. -/
def analyzerE : ProfileAnalyzer := ⟨[rowE], 0, 0, .Species⟩

/-- `analyzerQ` with the unreachable threshold `min_similarity = 1.01`. -/
def analyzerHigh : ProfileAnalyzer := ⟨[rowQ], 101/100, 0, .Species⟩

/-- The detailed analysis of `sampleQ` against profile `Q`. -/
def detQ : DetailedAnalysis :=
  calculate_statistics
    ⟨sharedList rowQ sampleQ, refOnlyList rowQ sampleQ, sampOnlyList rowQ sampleQ, initStats⟩

/-! ### Lemmas about the counter -/

theorem count_sequence_k (c : KmerCounter) (s : List Char) :
    (c.count_sequence s).k = c.k := by
  unfold KmerCounter.count_sequence
  split <;> rfl

theorem count_sequence_counts (c : KmerCounter) (s : List Char) :
    (c.count_sequence s).counts = c.counts ++ windows c.k s := by
  unfold KmerCounter.count_sequence
  split
  · next h => simp [windows, h]
  · rfl

theorem count_sequences_k (c : KmerCounter) (seqs : List (List Char)) :
    (c.count_sequences seqs).k = c.k := by
  induction seqs generalizing c with
  | nil => rfl
  | cons s ss ih =>
    show ((c.count_sequence s).count_sequences ss).k = c.k
    rw [ih, count_sequence_k]

theorem count_sequences_counts (c : KmerCounter) (seqs : List (List Char)) :
    (c.count_sequences seqs).counts = c.counts ++ (seqs.map (windows c.k)).flatten := by
  induction seqs generalizing c with
  | nil => simp [KmerCounter.count_sequences]
  | cons s ss ih =>
    show ((c.count_sequence s).count_sequences ss).counts = _
    rw [ih, count_sequence_counts, count_sequence_k, List.map_cons, List.flatten_cons,
      List.append_assoc]

theorem countBatches_k (c : KmerCounter) (bs : List (List (List Char))) :
    (c.countBatches bs).k = c.k := by
  induction bs generalizing c with
  | nil => rfl
  | cons b bs ih =>
    show ((c.count_sequences b).countBatches bs).k = c.k
    rw [ih, count_sequences_k]

theorem countBatches_counts (c : KmerCounter) (bs : List (List (List Char))) :
    (c.countBatches bs).counts = c.counts ++ (bs.flatten.map (windows c.k)).flatten := by
  induction bs generalizing c with
  | nil => simp [KmerCounter.countBatches]
  | cons b bs ih =>
    show ((c.count_sequences b).countBatches bs).counts = _
    rw [ih, count_sequences_counts, count_sequences_k, List.flatten_cons, List.map_append,
      List.flatten_append, List.append_assoc]

theorem windows_eq_self (k : Nat) (s : List Char) (h : s.length = k) :
    windows k s = [s] := by
  unfold windows
  rw [if_neg (by omega)]
  have h1 : s.length - k + 1 = 1 := by omega
  have h2 : List.range 1 = [0] := by decide
  rw [h1, h2, List.map_cons, List.map_nil, List.drop_zero, ← h, List.take_length]

/-! ### Claim theorems for the counter -/

/-- C4: for every way of splitting a sequence set into batches and every
order of processing, the final frequency table — every k-mer's count, and
hence `unique_kmers` and `total_kmers` — equals the one from counting the
sequences one at a time in any sequential order. -/
theorem kmer_counting_commutative (c : KmerCounter) (seqs : List (List Char))
    (bs : List (List (List Char))) (h : bs.flatten.Perm seqs) :
    (∀ w : Kmer, (c.countBatches bs).get_counts w = (c.count_sequences seqs).get_counts w) ∧
      (c.countBatches bs).unique_kmers = (c.count_sequences seqs).unique_kmers ∧
      (c.countBatches bs).total_kmers = (c.count_sequences seqs).total_kmers := by
  have hp : (c.countBatches bs).counts.Perm (c.count_sequences seqs).counts := by
    rw [countBatches_counts, count_sequences_counts]
    exact List.Perm.append_left _ ((h.map (windows c.k)).flatten)
  refine ⟨fun w => ?_, ?_, ?_⟩
  · simp only [KmerCounter.get_counts, List.count]
    exact hp.countP_eq _
  · simpa [KmerCounter.unique_kmers] using (hp.dedup).length_eq
  · simpa [KmerCounter.total_kmers] using hp.length_eq

/-- Witness for C4 at a concrete batching: `[["AT","ATCG"],["CGAT"]]` versus
the sequential order `["CGAT","ATCG","AT"]`. -/
theorem kmer_counting_commutative_witness :
    (([["AT".toList, "ATCG".toList], ["CGAT".toList]] :
        List (List (List Char))).flatten.Perm
      ["CGAT".toList, "ATCG".toList, "AT".toList]) ∧
    ((∀ w : Kmer,
        ((KmerCounter.new 2).countBatches
            [["AT".toList, "ATCG".toList], ["CGAT".toList]]).get_counts w =
          ((KmerCounter.new 2).count_sequences
            ["CGAT".toList, "ATCG".toList, "AT".toList]).get_counts w) ∧
      ((KmerCounter.new 2).countBatches
          [["AT".toList, "ATCG".toList], ["CGAT".toList]]).unique_kmers =
        ((KmerCounter.new 2).count_sequences
          ["CGAT".toList, "ATCG".toList, "AT".toList]).unique_kmers ∧
      ((KmerCounter.new 2).countBatches
          [["AT".toList, "ATCG".toList], ["CGAT".toList]]).total_kmers =
        ((KmerCounter.new 2).count_sequences
          ["CGAT".toList, "ATCG".toList, "AT".toList]).total_kmers) :=
  ⟨by decide, kmer_counting_commutative _ _ _ (by decide)⟩

/-- C5: `count_sequence` slides a width-`k` window and counts each window:
`"ATGATG"` at k = 3 yields exactly `{ATG: 2, TGA: 1, GAT: 1}`; a sequence
shorter than `k` (such as `"AT"` at k = 3, or the empty sequence) is a
no-op; a sequence of length exactly `k ≥ 1` contributes exactly one window. -/
theorem count_sequence_window_correctness :
    (((KmerCounter.new 3).count_sequence "ATGATG".toList).get_counts "ATG".toList = 2 ∧
     ((KmerCounter.new 3).count_sequence "ATGATG".toList).get_counts "TGA".toList = 1 ∧
     ((KmerCounter.new 3).count_sequence "ATGATG".toList).get_counts "GAT".toList = 1 ∧
     ((KmerCounter.new 3).count_sequence "ATGATG".toList).unique_kmers = 3 ∧
     ((KmerCounter.new 3).count_sequence "ATGATG".toList).total_kmers = 4) ∧
    (∀ (c : KmerCounter) (s : List Char), s.length < c.k → c.count_sequence s = c) ∧
    ((KmerCounter.new 3).count_sequence "AT".toList = KmerCounter.new 3) ∧
    ((KmerCounter.new 3).count_sequence [] = KmerCounter.new 3) ∧
    (∀ (c : KmerCounter) (s : List Char), 1 ≤ c.k → s.length = c.k →
      (c.count_sequence s).counts = c.counts ++ [s]) := by
  refine ⟨by decide, ?_, by decide, by decide, ?_⟩
  · intro c s h
    unfold KmerCounter.count_sequence
    rw [if_pos h]
  · intro c s _ h
    rw [count_sequence_counts, windows_eq_self c.k s h]

/-! ### Lemmas about the analyzer -/

theorem insertByCoverage_perm (m : ProfileMatch) (l : List ProfileMatch) :
    (insertByCoverage m l).Perm (m :: l) := by
  induction l with
  | nil => exact List.Perm.refl _
  | cons x xs ih =>
    unfold insertByCoverage
    split
    · exact List.Perm.refl _
    · exact (ih.cons x).trans (List.Perm.swap m x xs)

theorem sortByCoverage_perm (l : List ProfileMatch) : (sortByCoverage l).Perm l := by
  induction l with
  | nil => exact List.Perm.refl _
  | cons x xs ih => exact (insertByCoverage_perm x (sortByCoverage xs)).trans (ih.cons x)

theorem mem_sortByCoverage {m : ProfileMatch} {l : List ProfileMatch} :
    m ∈ sortByCoverage l ↔ m ∈ l :=
  (sortByCoverage_perm l).mem_iff

theorem insertByCoverage_sorted {l : List ProfileMatch} (m : ProfileMatch)
    (h : l.Sorted (fun m₁ m₂ => m₂.sample_coverage ≤ m₁.sample_coverage)) :
    (insertByCoverage m l).Sorted (fun m₁ m₂ => m₂.sample_coverage ≤ m₁.sample_coverage) := by
  induction l with
  | nil => simp [insertByCoverage]
  | cons x xs ih =>
    rw [List.sorted_cons] at h
    obtain ⟨hx, hxs⟩ := h
    unfold insertByCoverage
    split
    · next hle =>
      rw [List.sorted_cons]
      refine ⟨?_, List.sorted_cons.mpr ⟨hx, hxs⟩⟩
      intro b hb
      rcases List.mem_cons.mp hb with rfl | hb'
      · exact hle
      · exact le_trans (hx b hb') hle
    · next hlt =>
      rw [List.sorted_cons]
      refine ⟨?_, ih hxs⟩
      intro b hb
      rcases List.mem_cons.mp ((insertByCoverage_perm m xs).subset hb) with rfl | hb'
      · exact le_of_lt (lt_of_not_le hlt)
      · exact hx b hb'

theorem sortByCoverage_sorted (l : List ProfileMatch) :
    (sortByCoverage l).Sorted (fun m₁ m₂ => m₂.sample_coverage ≤ m₁.sample_coverage) := by
  induction l with
  | nil => simp [sortByCoverage]
  | cons x xs ih => exact insertByCoverage_sorted x ih

theorem compare_eq_some_iff {a : ProfileAnalyzer} {p : ProfileRow} {sample : List Kmer}
    {m : ProfileMatch} :
    compare_with_profile a p sample = some m ↔
      acceptMatch a p sample ∧ m = mkMatch p sample := by
  unfold compare_with_profile
  constructor
  · intro hm
    split at hm
    · next h => exact ⟨h, (Option.some.inj hm).symm⟩
    · exact absurd hm (by simp)
  · rintro ⟨h, rfl⟩
    rw [if_pos h]

theorem mem_analyze_sample_iff {a : ProfileAnalyzer} {c : KmerCounter} {m : ProfileMatch} :
    m ∈ analyze_sample a c ↔
      ∃ p ∈ a.profiles, p.level = a.taxonomy_level ∧ p.k = c.kmer_size ∧
        compare_with_profile a p c.counts = some m := by
  unfold analyze_sample
  rw [mem_sortByCoverage, List.mem_filterMap]
  constructor
  · rintro ⟨p, hp, heq⟩
    rw [List.mem_filter] at hp
    obtain ⟨hmem, hlev⟩ := hp
    by_cases hk : p.k = c.kmer_size
    · rw [if_pos hk] at heq
      exact ⟨p, hmem, by simpa using hlev, hk, heq⟩
    · rw [if_neg hk] at heq
      cases heq
  · rintro ⟨p, hmem, hlev, hk, hcomp⟩
    exact ⟨p, List.mem_filter.mpr ⟨hmem, by simpa using hlev⟩, by rw [if_pos hk]; exact hcomp⟩

theorem sharedKmerCount_le_sampleSize (p : ProfileRow) (sample : List Kmer)
    (h : (p.kmers.map Prod.fst).Nodup) :
    sharedKmerCount p sample ≤ sampleSize sample := by
  have hsub : ((sharedRows p sample).map Prod.fst).Sublist (p.kmers.map Prod.fst) :=
    List.Sublist.map Prod.fst (List.filter_sublist p.kmers)
  have hnd : ((sharedRows p sample).map Prod.fst).Nodup := h.sublist hsub
  have hss : ((sharedRows p sample).map Prod.fst).toFinset ⊆ sample.toFinset := by
    intro w hw
    rw [List.mem_toFinset] at hw ⊢
    obtain ⟨r, hr, rfl⟩ := List.mem_map.mp hw
    have := List.of_mem_filter hr
    simpa using this
  calc sharedKmerCount p sample
      = ((sharedRows p sample).map Prod.fst).length := by
        rw [List.length_map]; rfl
    _ = ((sharedRows p sample).map Prod.fst).toFinset.card := (List.toFinset_card_of_nodup hnd).symm
    _ ≤ sample.toFinset.card := Finset.card_le_card hss
    _ = sampleSize sample := by rw [List.card_toFinset]; rfl

/-- Witness for C5's quantified parts: the no-op on `"A"` at k = 3, and the
single window of `"AT"` at k = 2. -/
theorem count_sequence_window_correctness_witness :
    (("A".toList.length < (KmerCounter.new 3).k) ∧
      (KmerCounter.new 3).count_sequence "A".toList = KmerCounter.new 3) ∧
    ((1 ≤ (KmerCounter.new 2).k) ∧ "AT".toList.length = (KmerCounter.new 2).k ∧
      ((KmerCounter.new 2).count_sequence "AT".toList).counts =
        (KmerCounter.new 2).counts ++ ["AT".toList]) :=
  ⟨⟨by decide, count_sequence_window_correctness.2.1 _ _ (by decide)⟩,
   ⟨by decide, by decide,
    count_sequence_window_correctness.2.2.2.2 _ _ (by decide) (by decide)⟩⟩

/-! ### Lemmas about the detailed analysis -/

theorem mem_sharedList_iff {p : ProfileRow} {c : KmerCounter} {w : Kmer} :
    (∃ sk ∈ sharedList p c, sk.sequence = w) ↔
      w ∈ c.counts ∧ w ∈ p.kmers.map Prod.fst := by
  unfold sharedList
  constructor
  · rintro ⟨sk, hsk, hseq⟩
    obtain ⟨r, hr, rfl⟩ := List.mem_map.mp hsk
    obtain ⟨hrmem, hdec⟩ := List.mem_filter.mp hr
    have hr1 : r.1 = w := hseq
    subst hr1
    exact ⟨by simpa using hdec, List.mem_map.mpr ⟨r, hrmem, rfl⟩⟩
  · rintro ⟨hwc, hwp⟩
    obtain ⟨r, hr, hr1⟩ := List.mem_map.mp hwp
    refine ⟨SharedKmer.mk r.1 ((c.get_counts r.1 : ℚ) / (c.total_kmers : ℚ)) r.2,
      List.mem_map.mpr ⟨r, List.mem_filter.mpr ⟨hr, ?_⟩, rfl⟩, hr1⟩
    simpa [hr1] using hwc

theorem mem_refOnlyList_iff {p : ProfileRow} {c : KmerCounter} {w : Kmer} :
    (∃ u ∈ refOnlyList p c, u.sequence = w) ↔
      w ∉ c.counts ∧ w ∈ p.kmers.map Prod.fst := by
  unfold refOnlyList
  constructor
  · rintro ⟨u, hu, hseq⟩
    obtain ⟨r, hr, rfl⟩ := List.mem_map.mp hu
    obtain ⟨hrmem, hdec⟩ := List.mem_filter.mp hr
    have hr1 : r.1 = w := hseq
    subst hr1
    exact ⟨by simpa using hdec, List.mem_map.mpr ⟨r, hrmem, rfl⟩⟩
  · rintro ⟨hwc, hwp⟩
    obtain ⟨r, hr, hr1⟩ := List.mem_map.mp hwp
    refine ⟨UniqueKmer.mk r.1 r.2,
      List.mem_map.mpr ⟨r, List.mem_filter.mpr ⟨hr, ?_⟩, rfl⟩, hr1⟩
    simpa [hr1] using hwc

theorem mem_sampOnlyList_iff {p : ProfileRow} {c : KmerCounter} {w : Kmer} :
    (∃ u ∈ sampOnlyList p c, u.sequence = w) ↔
      w ∈ c.counts ∧ w ∉ p.kmers.map Prod.fst := by
  unfold sampOnlyList
  constructor
  · rintro ⟨u, hu, hseq⟩
    obtain ⟨v, hv, rfl⟩ := List.mem_map.mp hu
    obtain ⟨hvmem, hcond⟩ := List.mem_filter.mp hv
    have hv1 : v = w := hseq
    subst hv1
    have hvc : v ∈ c.counts := List.mem_dedup.mp hvmem
    refine ⟨hvc, fun hk => ?_⟩
    have hnone : ¬ ∃ sk ∈ sharedList p c, sk.sequence = v := by
      simpa [List.any_eq_true] using hcond
    exact hnone (mem_sharedList_iff.mpr ⟨hvc, hk⟩)
  · rintro ⟨hwc, hwk⟩
    refine ⟨UniqueKmer.mk w ((c.get_counts w : ℚ) / (c.total_kmers : ℚ)),
      List.mem_map.mpr ⟨w, List.mem_filter.mpr ⟨List.mem_dedup.mpr hwc, ?_⟩, rfl⟩, rfl⟩
    have hnone : ¬ ∃ sk ∈ sharedList p c, sk.sequence = w := fun hex =>
      hwk (mem_sharedList_iff.mp hex).2
    simpa [List.any_eq_true] using hnone

/-! ### Lemmas about profile creation -/

theorem lookup_map_pair (f : Kmer → ℚ) (l : List Kmer) (w : Kmer) (h : w ∈ l) :
    (l.map (fun v => (v, f v))).lookup w = some (f w) := by
  induction l with
  | nil => cases h
  | cons x xs ih =>
    by_cases hxw : w = x
    · subst hxw
      simp [List.lookup]
    · have hb : (w == x) = false := by simpa using hxw
      rcases List.mem_cons.mp h with rfl | hx
      · exact absurd rfl hxw
      · simp [List.lookup, hb, ih hx]

theorem count_instances_eq (w : Kmer) (l : List Kmer) :
    l.count w = @List.count Kmer instBEqOfDecidableEq w l := by
  induction l with
  | nil => rfl
  | cons x xs ih => simp [List.count_cons, ih, beq_eq_decide]

theorem profileFrequencies_sum (c : KmerCounter) (hne : c.counts ≠ []) :
    ((profileFrequencies c).map Prod.snd).sum = 1 := by
  unfold profileFrequencies KmerCounter.sampleKmerList KmerCounter.get_counts
    KmerCounter.total_kmers
  have hT : ((c.counts.length : ℚ)) ≠ 0 := by
    have : c.counts.length ≠ 0 := fun h0 => hne (List.length_eq_zero.mp h0)
    exact_mod_cast this
  rw [List.map_map]
  have hcomp : (Prod.snd ∘ fun w : Kmer => (w, (c.counts.count w : ℚ) / (c.counts.length : ℚ)))
      = fun w : Kmer => (c.counts.count w : ℚ) / (c.counts.length : ℚ) := rfl
  rw [hcomp]
  have hsplit : (fun w : Kmer => (c.counts.count w : ℚ) / (c.counts.length : ℚ))
      = fun w : Kmer => (c.counts.count w : ℚ) * ((c.counts.length : ℚ))⁻¹ := by
    funext w
    rw [div_eq_mul_inv]
  rw [hsplit, List.sum_map_mul_right]
  have hcast : (c.counts.dedup.map (fun w : Kmer => (c.counts.count w : ℚ))).sum
      = ((c.counts.dedup.map (fun w : Kmer => c.counts.count w)).sum : ℚ) := by
    rw [Nat.cast_list_sum, List.map_map]
    rfl
  rw [hcast,
    show (fun w : Kmer => c.counts.count w)
      = (fun w : Kmer => @List.count Kmer instBEqOfDecidableEq w c.counts) from
      funext (fun w => count_instances_eq w c.counts),
    List.sum_map_count_dedup_eq_length]
  exact mul_inv_cancel₀ hT

/-! ### Concrete evaluations over the `analyzerA` store -/

theorem covA1 : sampleCoverageQ rowP1 sampleC.counts = 1 := by
  unfold sampleCoverageQ
  rw [show sharedKmerCount rowP1 sampleC.counts = 2 from by decide,
    show sampleSize sampleC.counts = 2 from by decide]
  norm_num

theorem covA2 : sampleCoverageQ rowP2 sampleC.counts = 1/2 := by
  unfold sampleCoverageQ
  rw [show sharedKmerCount rowP2 sampleC.counts = 1 from by decide,
    show sampleSize sampleC.counts = 2 from by decide]
  norm_num

theorem srA1 : sizeRatioQ rowP1 sampleC.counts = 1/6 := by
  unfold sizeRatioQ
  rw [show sampleSize sampleC.counts = 2 from by decide,
    show profileSize rowP1 = 12 from by decide]
  norm_num

theorem srA2 : sizeRatioQ rowP2 sampleC.counts = 1 := by
  unfold sizeRatioQ
  rw [show sampleSize sampleC.counts = 2 from by decide,
    show profileSize rowP2 = 2 from by decide]
  norm_num

theorem compareA_P1 : compare_with_profile analyzerA rowP1 sampleC.counts =
    some (mkMatch rowP1 sampleC.counts) := by
  refine compare_eq_some_iff.mpr ⟨⟨⟨by decide, ?_⟩, by decide⟩, rfl⟩
  show analyzerA.min_similarity ≤
    (sharedKmerCount rowP1 sampleC.counts : ℚ) / (sampleSize sampleC.counts : ℚ)
  rw [show analyzerA.min_similarity = 0 from rfl]
  positivity

theorem compareA_P2 : compare_with_profile analyzerA rowP2 sampleC.counts =
    some (mkMatch rowP2 sampleC.counts) := by
  refine compare_eq_some_iff.mpr ⟨⟨⟨by decide, ?_⟩, by decide⟩, rfl⟩
  show analyzerA.min_similarity ≤
    (sharedKmerCount rowP2 sampleC.counts : ℚ) / (sampleSize sampleC.counts : ℚ)
  rw [show analyzerA.min_similarity = 0 from rfl]
  positivity

theorem analyzeA_eval : analyze_sample analyzerA sampleC =
    [mkMatch rowP1 sampleC.counts, mkMatch rowP2 sampleC.counts] := by
  unfold analyze_sample
  rw [show analyzerA.profiles.filter
      (fun p => decide (p.level = analyzerA.taxonomy_level)) = [rowP1, rowP2] from by
    simp [analyzerA, rowP1, rowP2, rowP3]]
  rw [show List.filterMap
      (fun p => if p.k = sampleC.kmer_size then compare_with_profile analyzerA p sampleC.counts
        else none) [rowP1, rowP2] =
      [mkMatch rowP1 sampleC.counts, mkMatch rowP2 sampleC.counts] from by
    have hk1 : rowP1.k = sampleC.kmer_size := rfl
    have hk2 : rowP2.k = sampleC.kmer_size := rfl
    simp [hk1, hk2, compareA_P1, compareA_P2]]
  have hcond : (mkMatch rowP2 sampleC.counts).sample_coverage ≤
      (mkMatch rowP1 sampleC.counts).sample_coverage := by
    show sampleCoverageQ rowP2 sampleC.counts ≤ sampleCoverageQ rowP1 sampleC.counts
    rw [covA1, covA2]
    norm_num
  simp [sortByCoverage, insertByCoverage, hcond]

/-! ### Claim theorems for the analyzer -/

/-- C1 (amended): the list returned by `analyze_sample` is ordered by
`sample_coverage`, descending (the source computes no confidence blend). -/
theorem analyze_sample_sorted_by_sample_coverage (a : ProfileAnalyzer) (c : KmerCounter) :
    (analyze_sample a c).Sorted (fun m₁ m₂ => m₂.sample_coverage ≤ m₁.sample_coverage) :=
  sortByCoverage_sorted _

/-- C2: a candidate profile at the configured level with the sample's `k`
appears in the result exactly when the `sample_coverage >= min_similarity`
test (f64 semantics, see `coverage_ge`) and `shared_kmers >= min_shared_kmers`
both pass; failing candidates are filtered out, never an error. -/
theorem analyze_sample_threshold_iff (a : ProfileAnalyzer) (c : KmerCounter) (p : ProfileRow)
    (hmem : p ∈ a.profiles) (hlev : p.level = a.taxonomy_level) (hk : p.k = c.kmer_size)
    (hnames : (a.profiles.map ProfileRow.name).Nodup) :
    (∃ m ∈ analyze_sample a c, m.name = p.name) ↔
      (coverage_ge (sharedKmerCount p c.counts) (sampleSize c.counts) a.min_similarity ∧
        a.min_shared_kmers ≤ sharedKmerCount p c.counts) := by
  constructor
  · rintro ⟨m, hm, hname⟩
    rw [mem_analyze_sample_iff] at hm
    obtain ⟨q, hqmem, _, _, hcomp⟩ := hm
    rw [compare_eq_some_iff] at hcomp
    obtain ⟨hacc, rfl⟩ := hcomp
    have hqp : q = p :=
      List.inj_on_of_nodup_map hnames hqmem hmem (by simpa [mkMatch] using hname)
    subst hqp
    exact hacc
  · intro hacc
    refine ⟨mkMatch p c.counts, ?_, rfl⟩
    rw [mem_analyze_sample_iff]
    exact ⟨p, hmem, hlev, hk, compare_eq_some_iff.mpr ⟨hacc, rfl⟩⟩

/-- Witness for C2: the one-profile store at thresholds 0 with sample `AA`. -/
theorem analyze_sample_threshold_iff_witness :
    (rowQ ∈ analyzerQ.profiles ∧ rowQ.level = analyzerQ.taxonomy_level ∧
      rowQ.k = sampleQ.kmer_size ∧ (analyzerQ.profiles.map ProfileRow.name).Nodup) ∧
    ((∃ m ∈ analyze_sample analyzerQ sampleQ, m.name = rowQ.name) ↔
      (coverage_ge (sharedKmerCount rowQ sampleQ.counts) (sampleSize sampleQ.counts)
          analyzerQ.min_similarity ∧
        analyzerQ.min_shared_kmers ≤ sharedKmerCount rowQ sampleQ.counts)) :=
  ⟨⟨by simp [analyzerQ], rfl, rfl, by simp [analyzerQ]⟩,
   analyze_sample_threshold_iff analyzerQ sampleQ rowQ (by simp [analyzerQ]) rfl rfl
     (by simp [analyzerQ])⟩

/-- C3 (counterexample): with an empty sample the coverage is `0.0/0.0 = NaN`
and `NaN >= 0.0` is false, so `analyze_sample` returns no matches even though
the store holds a same-k, same-level profile and both thresholds are zero —
refuting "returns every same-k, same-level stored profile for every sample
counter". -/
theorem empty_sample_returns_no_matches :
    analyze_sample analyzerE (KmerCounter.new 3) = [] ∧
    rowE ∈ analyzerE.profiles ∧ rowE.level = analyzerE.taxonomy_level ∧
    rowE.k = (KmerCounter.new 3).kmer_size ∧
    analyzerE.min_similarity = 0 ∧ analyzerE.min_shared_kmers = 0 := by
  refine ⟨?_, by simp [analyzerE], rfl, rfl, rfl, rfl⟩
  simp [analyze_sample, analyzerE, rowE, KmerCounter.new, KmerCounter.kmer_size,
    compare_with_profile, acceptMatch, coverage_ge, sampleSize, sortByCoverage]

/-- C3 (amended): with `min_similarity = 0` and `min_shared_kmers = 0` every
same-k, same-level stored profile is returned provided the sample has at
least one counted k-mer (an empty sample yields NaN coverage and no matches);
with `min_similarity = 1.01` no profile is ever returned (given the store
invariant that a profile's k-mer rows have distinct k-mers, coverage is at
most 1). -/
theorem threshold_boundary_amended :
    (∀ (a : ProfileAnalyzer) (c : KmerCounter) (p : ProfileRow),
      a.min_similarity = 0 → a.min_shared_kmers = 0 → c.counts ≠ [] →
      p ∈ a.profiles → p.level = a.taxonomy_level → p.k = c.kmer_size →
      ∃ m ∈ analyze_sample a c, m.name = p.name) ∧
    (∀ (a : ProfileAnalyzer) (c : KmerCounter),
      a.min_similarity = 101/100 →
      (∀ p ∈ a.profiles, (p.kmers.map Prod.fst).Nodup) →
      analyze_sample a c = []) := by
  constructor
  · intro a c p hsim hshared hne hmem hlev hk
    refine ⟨mkMatch p c.counts, ?_, rfl⟩
    rw [mem_analyze_sample_iff]
    refine ⟨p, hmem, hlev, hk, compare_eq_some_iff.mpr ⟨⟨?_, ?_⟩, rfl⟩⟩
    · refine ⟨?_, ?_⟩
      · have : c.counts.dedup ≠ [] := fun hd => hne ((List.dedup_eq_nil c.counts).mp hd)
        exact List.length_pos.mpr this
      · rw [hsim]
        positivity
    · rw [hshared]
      exact Nat.zero_le _
  · intro a c hsim hnod
    unfold analyze_sample
    have hnil : (a.profiles.filter (fun p => decide (p.level = a.taxonomy_level))).filterMap
        (fun p => if p.k = c.kmer_size then compare_with_profile a p c.counts else none) = [] := by
      rw [List.filterMap_eq_nil_iff]
      intro p hp
      split
      · unfold compare_with_profile
        rw [if_neg]
        rintro ⟨⟨hpos, hcov⟩, -⟩
        have hle : sharedKmerCount p c.counts ≤ sampleSize c.counts :=
          sharedKmerCount_le_sampleSize p c.counts (hnod p (List.mem_of_mem_filter hp))
        have h1 : (sharedKmerCount p c.counts : ℚ) / (sampleSize c.counts : ℚ) ≤ 1 := by
          rw [div_le_one (by exact_mod_cast hpos)]
          exact_mod_cast hle
        rw [hsim] at hcov
        have : (101 : ℚ)/100 ≤ 1 := le_trans hcov h1
        norm_num at this
      · rfl
    rw [hnil]
    rfl

/-- Witness for C3 (amended): both halves at the one-profile store. -/
theorem threshold_boundary_amended_witness :
    ((analyzerQ.min_similarity = 0 ∧ analyzerQ.min_shared_kmers = 0 ∧
        sampleQ.counts ≠ [] ∧ rowQ ∈ analyzerQ.profiles ∧
        rowQ.level = analyzerQ.taxonomy_level ∧ rowQ.k = sampleQ.kmer_size) ∧
      ∃ m ∈ analyze_sample analyzerQ sampleQ, m.name = rowQ.name) ∧
    ((analyzerHigh.min_similarity = 101/100 ∧
        (∀ p ∈ analyzerHigh.profiles, (p.kmers.map Prod.fst).Nodup)) ∧
      analyze_sample analyzerHigh sampleQ = []) :=
  ⟨⟨⟨rfl, rfl, by simp [sampleQ], by simp [analyzerQ], rfl, rfl⟩,
    threshold_boundary_amended.1 analyzerQ sampleQ rowQ rfl rfl (by simp [sampleQ])
      (by simp [analyzerQ]) rfl rfl⟩,
   ⟨⟨rfl, by simp [analyzerHigh, rowQ]⟩,
    threshold_boundary_amended.2 analyzerHigh sampleQ rfl (by simp [analyzerHigh, rowQ])⟩⟩

/-- C6: every match returned by `analyze_sample` comes from a stored profile
at the configured level whose `k` equals the sample counter's `kmer_size()`;
a profile with a different `k` is skipped (no error), so it never appears. -/
theorem k_mismatch_never_returned (a : ProfileAnalyzer) (c : KmerCounter)
    (m : ProfileMatch) (h : m ∈ analyze_sample a c) :
    ∃ p ∈ a.profiles, p.level = a.taxonomy_level ∧ p.k = c.kmer_size ∧ m.name = p.name := by
  rw [mem_analyze_sample_iff] at h
  obtain ⟨p, hmem, hlev, hk, hcomp⟩ := h
  rw [compare_eq_some_iff] at hcomp
  exact ⟨p, hmem, hlev, hk, by rw [hcomp.2]; rfl⟩

/-- Witness for C6: the match produced for `rowQ` is in the result, and the
theorem produces its matching-k origin. -/
theorem k_mismatch_never_returned_witness :
    ∃ p ∈ analyzerQ.profiles, p.level = analyzerQ.taxonomy_level ∧
      p.k = sampleQ.kmer_size ∧ (mkMatch rowQ sampleQ.counts).name = p.name :=
  k_mismatch_never_returned analyzerQ sampleQ (mkMatch rowQ sampleQ.counts) (by
    rw [mem_analyze_sample_iff]
    refine ⟨rowQ, by simp [analyzerQ], rfl, rfl, compare_eq_some_iff.mpr ⟨⟨⟨?_, ?_⟩, ?_⟩, rfl⟩⟩
    · decide
    · show (0 : ℚ) ≤ (sharedKmerCount rowQ sampleQ.counts : ℚ) / (sampleSize sampleQ.counts : ℚ)
      positivity
    · decide)

/-- C1 (counterexample): on the store `[rowP1, rowP2, rowP3]` and the sample
`{AA, CC}`, `analyze_sample` returns the `rowP1` match before the `rowP2`
match (it sorts by `sample_coverage`), yet the spec's confidence blend for
`rowP1` (7/18) is strictly below that of `rowP2` (1/2) — so the returned
list is not ordered by the spec's `confidence_score` descending. -/
theorem analyze_sample_order_not_spec_confidence :
    ((analyze_sample analyzerA sampleC).map ProfileMatch.name = ["P1", "P2"]) ∧
    spec_confidence_score analyzerA.profiles rowP1 sampleC.counts <
      spec_confidence_score analyzerA.profiles rowP2 sampleC.counts := by
  constructor
  · rw [analyzeA_eval]
    rfl
  · have hu1 : spec_uniqueness_score analyzerA.profiles rowP1 sampleC.counts = 0 := by
      unfold spec_uniqueness_score
      have e1 : (specSharedKmers rowP1 sampleC.counts).length = 2 := by decide
      have e2 : ((specSharedKmers rowP1 sampleC.counts).filter
          (fun w => !ownedElsewhere analyzerA.profiles rowP1 w)).length = 0 := by decide
      rw [e1, e2]
      norm_num
    have hu2 : spec_uniqueness_score analyzerA.profiles rowP2 sampleC.counts = 0 := by
      unfold spec_uniqueness_score
      have e1 : (specSharedKmers rowP2 sampleC.counts).length = 1 := by decide
      have e2 : ((specSharedKmers rowP2 sampleC.counts).filter
          (fun w => !ownedElsewhere analyzerA.profiles rowP2 w)).length = 0 := by decide
      rw [e1, e2]
      norm_num
    unfold spec_confidence_score
    rw [covA1, covA2, hu1, hu2, srA1, srA2,
      show |1 - (1:ℚ)/6| = 1 - 1/6 from abs_of_nonneg (by norm_num),
      show |(1:ℚ) - 1| = 0 from by norm_num]
    norm_num

/-- C7: `get_detailed_analysis` returns `none` exactly when no stored profile
has the given name; otherwise every k-mer of the union of sample k-mers and
reference k-mers lands in exactly one of the three lists, and the statistics'
totals are those lists' lengths. -/
theorem detailed_analysis_partition (a : ProfileAnalyzer) (c : KmerCounter) (name : String) :
    (get_detailed_analysis a c name = none ↔ ∀ p ∈ a.profiles, p.name ≠ name) ∧
    (∀ d, get_detailed_analysis a c name = some d →
      (d.statistics.total_shared = d.shared_kmers.length ∧
        d.statistics.total_unique_reference = d.unique_to_reference.length ∧
        d.statistics.total_unique_sample = d.unique_to_sample.length) ∧
      ∃ p ∈ a.profiles, p.name = name ∧
        ∀ w : Kmer, (w ∈ c.counts ∨ w ∈ p.kmers.map Prod.fst) →
          (((∃ sk ∈ d.shared_kmers, sk.sequence = w) ∨
              (∃ u ∈ d.unique_to_reference, u.sequence = w) ∨
              (∃ u ∈ d.unique_to_sample, u.sequence = w)) ∧
            ¬((∃ sk ∈ d.shared_kmers, sk.sequence = w) ∧
              (∃ u ∈ d.unique_to_reference, u.sequence = w)) ∧
            ¬((∃ sk ∈ d.shared_kmers, sk.sequence = w) ∧
              (∃ u ∈ d.unique_to_sample, u.sequence = w)) ∧
            ¬((∃ u ∈ d.unique_to_reference, u.sequence = w) ∧
              (∃ u ∈ d.unique_to_sample, u.sequence = w)))) := by
  constructor
  · unfold get_detailed_analysis
    cases hf : a.profiles.find? (fun p => p.name == name) with
    | none =>
      rw [List.find?_eq_none] at hf
      simp only [eq_self_iff_true, true_iff]
      intro p hp
      simpa using hf p hp
    | some p =>
      constructor
      · intro h
        cases h
      · intro hall
        exact absurd (by simpa using List.find?_some hf)
          (hall p (List.mem_of_find?_eq_some hf))
  · intro d hd
    unfold get_detailed_analysis at hd
    cases hf : a.profiles.find? (fun p => p.name == name) with
    | none =>
      rw [hf] at hd
      cases hd
    | some p =>
      rw [hf] at hd
      have hd' := Option.some.inj hd
      subst hd'
      refine ⟨⟨rfl, rfl, rfl⟩, p, List.mem_of_find?_eq_some hf,
        by simpa using List.find?_some hf, ?_⟩
      intro w hw
      rw [show (calculate_statistics
          ⟨sharedList p c, refOnlyList p c, sampOnlyList p c, initStats⟩).shared_kmers =
          sharedList p c from rfl,
        show (calculate_statistics
          ⟨sharedList p c, refOnlyList p c, sampOnlyList p c, initStats⟩).unique_to_reference =
          refOnlyList p c from rfl,
        show (calculate_statistics
          ⟨sharedList p c, refOnlyList p c, sampOnlyList p c, initStats⟩).unique_to_sample =
          sampOnlyList p c from rfl,
        mem_sharedList_iff, mem_refOnlyList_iff, mem_sampOnlyList_iff]
      by_cases h1 : w ∈ c.counts <;> by_cases h2 : w ∈ p.kmers.map Prod.fst <;> tauto

/-- Witness for C7: the name `"missing"` is absent (giving `none`), and the
analysis of `sampleQ` against profile `Q` satisfies the partition and the
statistics totals. -/
theorem detailed_analysis_partition_witness :
    ((∀ p ∈ analyzerQ.profiles, p.name ≠ "missing") ∧
      get_detailed_analysis analyzerQ sampleQ "missing" = none) ∧
    ((detQ.statistics.total_shared = detQ.shared_kmers.length ∧
        detQ.statistics.total_unique_reference = detQ.unique_to_reference.length ∧
        detQ.statistics.total_unique_sample = detQ.unique_to_sample.length) ∧
      ∃ p ∈ analyzerQ.profiles, p.name = "Q" ∧
        ∀ w : Kmer, (w ∈ sampleQ.counts ∨ w ∈ p.kmers.map Prod.fst) →
          (((∃ sk ∈ detQ.shared_kmers, sk.sequence = w) ∨
              (∃ u ∈ detQ.unique_to_reference, u.sequence = w) ∨
              (∃ u ∈ detQ.unique_to_sample, u.sequence = w)) ∧
            ¬((∃ sk ∈ detQ.shared_kmers, sk.sequence = w) ∧
              (∃ u ∈ detQ.unique_to_reference, u.sequence = w)) ∧
            ¬((∃ sk ∈ detQ.shared_kmers, sk.sequence = w) ∧
              (∃ u ∈ detQ.unique_to_sample, u.sequence = w)) ∧
            ¬((∃ u ∈ detQ.unique_to_reference, u.sequence = w) ∧
              (∃ u ∈ detQ.unique_to_sample, u.sequence = w)))) :=
  ⟨⟨by decide, (detailed_analysis_partition analyzerQ sampleQ "missing").1.mpr (by decide)⟩,
   (detailed_analysis_partition analyzerQ sampleQ "Q").2 detQ rfl⟩

/-- C8: a profile created from a counter with at least one counted k-mer
stores, for each counted k-mer, the raw count divided by `total_kmers()`,
and the frequency values sum to exactly 1 (hence within 0.01 of 1.0). -/
theorem profile_frequencies_normalized (store : List ProfileRow) (c : KmerCounter)
    (name : String) (level : TaxonomyLevel)
    (hne : c.counts ≠ []) (hfresh : ∀ r ∈ store, r.name ≠ name) :
    (create_profile store c name level).2 = Except.ok (mkProfile c name level) ∧
    (∀ e ∈ (mkProfile c name level).frequencies,
      e.2 = (c.get_counts e.1 : ℚ) / (c.total_kmers : ℚ) ∧ e.1 ∈ c.counts) ∧
    (∀ w ∈ c.counts, (mkProfile c name level).frequencies.lookup w =
      some ((c.get_counts w : ℚ) / (c.total_kmers : ℚ))) ∧
    |(((mkProfile c name level).frequencies.map Prod.snd).sum) - 1| ≤ 1/100 := by
  have hfr : (mkProfile c name level).frequencies = profileFrequencies c := rfl
  have hany : (store.any fun r => r.name == name) = false := by
    rw [List.any_eq_false]
    intro r hr
    simpa using hfresh r hr
  refine ⟨?_, ?_, ?_, ?_⟩
  · unfold create_profile
    rw [if_neg]
    simp [hany]
  · intro e he
    rw [hfr] at he
    unfold profileFrequencies at he
    obtain ⟨w, hw, rfl⟩ := List.mem_map.mp he
    exact ⟨rfl, List.mem_dedup.mp hw⟩
  · intro w hw
    rw [hfr]
    exact lookup_map_pair _ _ _ (List.mem_dedup.mpr hw)
  · rw [hfr, profileFrequencies_sum c hne]
    norm_num

/-- Witness for C8: creating profile `S` from the one-window sample into an
empty store. -/
theorem profile_frequencies_normalized_witness :
    (sampleQ.counts ≠ [] ∧ (∀ r ∈ ([] : List ProfileRow), r.name ≠ "S")) ∧
    ((create_profile [] sampleQ "S" .Species).2 = Except.ok (mkProfile sampleQ "S" .Species) ∧
      (∀ e ∈ (mkProfile sampleQ "S" .Species).frequencies,
        e.2 = (sampleQ.get_counts e.1 : ℚ) / (sampleQ.total_kmers : ℚ) ∧ e.1 ∈ sampleQ.counts) ∧
      (∀ w ∈ sampleQ.counts, (mkProfile sampleQ "S" .Species).frequencies.lookup w =
        some ((sampleQ.get_counts w : ℚ) / (sampleQ.total_kmers : ℚ))) ∧
      |(((mkProfile sampleQ "S" .Species).frequencies.map Prod.snd).sum) - 1| ≤ 1/100) :=
  ⟨⟨by decide, by decide⟩,
   profile_frequencies_normalized [] sampleQ "S" .Species (by decide) (by decide)⟩

/-- C9 (counterexample): `add_profile` on a store that already holds a
profile named `Q` returns success and leaves the store unchanged, although
no skip-on-exists was requested (`add_profile` takes no such flag) —
refuting "creating a profile whose name already exists fails with an error
... for every path that adds a profile to the store". -/
theorem add_profile_duplicate_silently_succeeds :
    add_profile [rowQ] (mkProfile sampleQ "Q" .Species) = ([rowQ], Except.ok ()) := by
  unfold add_profile
  rw [if_pos]
  show ([rowQ].any fun r => r.name == (mkProfile sampleQ "Q" .Species).name) = true
  decide

/-- C9 (amended): `create_profile` on a duplicate name fails with an error
and leaves the store unchanged, but `add_profile` — the other path that adds
a profile to the store — silently returns success on a duplicate name,
leaving the store unchanged, unconditionally.  (The `skip_existing` option
exists only as a CLI pre-check in front of `create_profile`; the store API
itself offers no such flag, and `add_profile`'s skip does not depend on it.) -/
theorem duplicate_profile_behavior (store : List ProfileRow) (c : KmerCounter)
    (name : String) (level : TaxonomyLevel) (p : Profile)
    (hdup : ∃ r ∈ store, r.name = name) (hp : p.name = name) :
    (create_profile store c name level).1 = store ∧
    (create_profile store c name level).2 =
      Except.error ("Profile " ++ name ++ " already exists in database") ∧
    add_profile store p = (store, Except.ok ()) := by
  have hany : (store.any fun r => r.name == name) = true := by
    rw [List.any_eq_true]
    obtain ⟨r, hr, he⟩ := hdup
    exact ⟨r, hr, by simp [he]⟩
  have hany' : (store.any fun r => r.name == p.name) = true := by
    rw [hp]
    exact hany
  unfold create_profile add_profile
  rw [if_pos hany, if_pos hany']
  exact ⟨rfl, rfl, rfl⟩

/-- Witness for C9 (amended): duplicate name `Q` against the store `[rowQ]`. -/
theorem duplicate_profile_behavior_witness :
    ((∃ r ∈ [rowQ], r.name = "Q") ∧ (mkProfile sampleQ "Q" .Species).name = "Q") ∧
    ((create_profile [rowQ] sampleQ "Q" .Species).1 = [rowQ] ∧
      (create_profile [rowQ] sampleQ "Q" .Species).2 =
        Except.error ("Profile " ++ "Q" ++ " already exists in database") ∧
      add_profile [rowQ] (mkProfile sampleQ "Q" .Species) = ([rowQ], Except.ok ())) :=
  ⟨⟨by decide, rfl⟩,
   duplicate_profile_behavior [rowQ] sampleQ "Q" .Species
     (mkProfile sampleQ "Q" .Species) (by decide) rfl⟩

/-- C10: in `get_detailed_analysis` statistics, `size_ratio` is the number of
sample-only k-mers over the number of reference-only k-mers, and stays 0 when
there are no reference-only k-mers; concretely for `rowP1` against `sampleC`
the match-scoring `size_ratio` is 1/6 while the detailed-analysis
`size_ratio` is 0 — a different quantity. -/
theorem detailed_size_ratio_formula :
    (∀ (a : ProfileAnalyzer) (c : KmerCounter) (name : String) (d : DetailedAnalysis),
      get_detailed_analysis a c name = some d →
      (0 < d.statistics.total_unique_reference →
        d.statistics.size_ratio = (d.statistics.total_unique_sample : ℚ) /
          (d.statistics.total_unique_reference : ℚ)) ∧
      (d.statistics.total_unique_reference = 0 → d.statistics.size_ratio = 0)) ∧
    ((compare_with_profile analyzerA rowP1 sampleC.counts).map ProfileMatch.size_ratio =
        some (1/6) ∧
      (get_detailed_analysis analyzerA sampleC "P1").map
        (fun d => d.statistics.size_ratio) = some 0 ∧
      (1 : ℚ)/6 ≠ 0) := by
  constructor
  · intro a c name d hd
    unfold get_detailed_analysis at hd
    cases hf : a.profiles.find? (fun p => p.name == name) with
    | none =>
      rw [hf] at hd
      cases hd
    | some p =>
      rw [hf] at hd
      have hd' := Option.some.inj hd
      subst hd'
      constructor
      · intro hpos
        have hpos' : 0 < (refOnlyList p c).length := hpos
        show (if 0 < (refOnlyList p c).length then
            ((sampOnlyList p c).length : ℚ) / ((refOnlyList p c).length : ℚ)
          else initStats.size_ratio) = _
        rw [if_pos hpos']
        rfl
      · intro hzero
        have hzero' : (refOnlyList p c).length = 0 := hzero
        show (if 0 < (refOnlyList p c).length then
            ((sampOnlyList p c).length : ℚ) / ((refOnlyList p c).length : ℚ)
          else initStats.size_ratio) = 0
        rw [if_neg (by simp [hzero'])]
        rfl
  · refine ⟨?_, ?_, by norm_num⟩
    · rw [compareA_P1]
      show some (sizeRatioQ rowP1 sampleC.counts) = some (1/6)
      rw [srA1]
    · rw [show get_detailed_analysis analyzerA sampleC "P1" = some (calculate_statistics
        ⟨sharedList rowP1 sampleC, refOnlyList rowP1 sampleC, sampOnlyList rowP1 sampleC,
          initStats⟩) from rfl]
      show some (if 0 < (refOnlyList rowP1 sampleC).length then
          ((sampOnlyList rowP1 sampleC).length : ℚ) / ((refOnlyList rowP1 sampleC).length : ℚ)
        else initStats.size_ratio) = some 0
      rw [show (refOnlyList rowP1 sampleC).length = 10 from by decide,
        show (sampOnlyList rowP1 sampleC).length = 0 from by decide]
      norm_num

/-- Witness for C10's universally quantified part, at the `detQ` analysis. -/
theorem detailed_size_ratio_formula_witness :
    (get_detailed_analysis analyzerQ sampleQ "Q" = some detQ) ∧
    ((0 < detQ.statistics.total_unique_reference →
        detQ.statistics.size_ratio = (detQ.statistics.total_unique_sample : ℚ) /
          (detQ.statistics.total_unique_reference : ℚ)) ∧
      (detQ.statistics.total_unique_reference = 0 → detQ.statistics.size_ratio = 0)) :=
  ⟨rfl, detailed_size_ratio_formula.1 analyzerQ sampleQ "Q" detQ rfl⟩

end Papro
